import Mathlib

/-!
# Rayleigh phase function and the scripted-extension trampoline

A shallow embedding of `src/phase/rayleigh.cpp` and of the `PyPhaseFunction`
trampoline of `src/librender/python/phase_v.cpp`.

The C++ code is a template over the numeric type `Float` (scalar or batched).
The embedding keeps that shape: every routine takes what the variant supplies
(the arithmetic of `Float`, its mask type and the operations on masks) as an
explicit record `FloatOps F`, so the same definitions are read over the real
numbers (`realOps`), over a batch of lanes (`FloatOps.batch`) or over any other
carrier.
-/

namespace Mitsuba

/-! ## Numeric backend -/

/-- Profiler phases named by the phase-function code. -/
inductive ProfilerPhase where
  | PhaseFunctionSample
  | PhaseFunctionEvaluate
  deriving DecidableEq, Repr

/-- What a numeric variant supplies to the templates. For the type `Float`:
literals, the elementwise field operations and the elementwise transcendental
functions the Rayleigh plugin calls (`enoki::sqrt`, `enoki::cbrt`,
`enoki::sincos`, `enoki::max`) and the constants `math::InvPi` and
`math::TwoPi`. For its mask type `Mask`: literals, conjunction, the comparison
that produces a mask, the blend `select`, and the horizontal reductions `any`
and `all`, which look at every lane at once. The statement macro
`MTS_MASKED_FUNCTION`, whose definition is in a header that is not part of the
sources at hand, is taken as a parameter as well. -/
structure FloatOps (F : Type) where
  /-- A `float` literal such as `2.f`, broadcast to `Float`. -/
  lit : ℚ → F
  add : F → F → F
  sub : F → F → F
  mul : F → F → F
  neg : F → F
  max : F → F → F
  sqrt : F → F
  cbrt : F → F
  sin : F → F
  cos : F → F
  /-- The constant `math::InvPi<Float>`. -/
  invPi : F
  /-- The constant `math::TwoPi<Float>`. -/
  twoPi : F
  /-- The mask type `Mask` of the variant: `bool` for a scalar `Float`, one
  flag per lane for a batched one. -/
  Mask : Type
  /-- A `bool` literal such as `true`, broadcast to `Mask`. -/
  mask_lit : Bool → Mask
  /-- Conjunction of two masks. -/
  mand : Mask → Mask → Mask
  /-- Comparison `a < b`, which yields a mask. -/
  lt : F → F → Mask
  /-- The blend `enoki::select (m, a, b)`, that is `m ? a : b`. -/
  select : Mask → F → F → F
  /-- The horizontal reduction `enoki::any`: some lane of the mask is set. -/
  any : Mask → Bool
  /-- The horizontal reduction `enoki::all`: every lane of the mask is set. -/
  all : Mask → Bool
  /-- The value the statement `MTS_MASKED_FUNCTION (phase, active)` leaves in
  the variable `active`. -/
  MTS_MASKED_FUNCTION : ProfilerPhase → Mask → Mask

/-- Three-component vector `Vector3f`. -/
structure Vector3f (F : Type) where
  x : F
  y : F
  z : F

/-- Two-component point `Point2f`. -/
structure Point2f (F : Type) where
  x : F
  y : F

/-- Shading frame `Frame3f`: two tangents and a normal. -/
structure Frame3f (F : Type) where
  s : Vector3f F
  t : Vector3f F
  n : Vector3f F

/-- Scattering event record `MediumInteraction3f`, restricted to the fields a
phase function reads: position, incoming direction and shading frame. -/
structure MediumInteraction3f (F : Type) where
  p : Vector3f F
  wi : Vector3f F
  sh_frame : Frame3f F

/-- Transport direction of the sampling context. -/
inductive TransportMode where
  | Radiance
  | Importance
  deriving DecidableEq, Repr

/-- Sampling context `PhaseFunctionContext`: transport mode, a handle to the
borrowed random-number source, and the selected component. -/
structure PhaseFunctionContext where
  mode : TransportMode
  sampler : Nat
  component : Nat
  deriving DecidableEq, Repr

section Generic

variable {F : Type}

/-- The helper `enoki::sqr`: the square as a product. -/
def sqr (ops : FloatOps F) (a : F) : F := ops.mul a a

/-- The helper `enoki::safe_sqrt`: square root of the argument clamped at zero. -/
def safe_sqrt (ops : FloatOps F) (a : F) : F := ops.sqrt (ops.max a (ops.lit 0))

/-- The helper `enoki::sincos`: sine and cosine of one argument, in that order. -/
def sincos (ops : FloatOps F) (a : F) : F × F := (ops.sin a, ops.cos a)

/-- Inner product `dot` of two vectors. -/
def dot (ops : FloatOps F) (a b : Vector3f F) : F :=
  ops.add (ops.add (ops.mul a.x b.x) (ops.mul a.y b.y)) (ops.mul a.z b.z)

/-- Euclidean length `norm` of a vector. -/
def norm (ops : FloatOps F) (a : Vector3f F) : F := ops.sqrt (dot ops a a)

/-- Vector times scalar. -/
def Vector3f.scale (ops : FloatOps F) (a : Vector3f F) (c : F) : Vector3f F :=
  ⟨ops.mul a.x c, ops.mul a.y c, ops.mul a.z c⟩

/-- Componentwise sum of two vectors. -/
def Vector3f.add (ops : FloatOps F) (a b : Vector3f F) : Vector3f F :=
  ⟨ops.add a.x b.x, ops.add a.y b.y, ops.add a.z b.z⟩

/-- Modelled from the spec: `Frame3f::to_world` is declared in a header that is
not part of the sources at hand; the spec says the local direction is
transformed "into world space using the event's shading frame", which is the
combination `s * v.x + t * v.y + n * v.z` of the frame vectors. -/
def Frame3f.to_world (ops : FloatOps F) (f : Frame3f F) (v : Vector3f F) : Vector3f F :=
  Vector3f.add ops (Vector3f.add ops (f.s.scale ops v.x) (f.t.scale ops v.y)) (f.n.scale ops v.z)

/-- Modelled from the spec: `MediumInteraction3f::to_world` (header not part of
the sources at hand) maps a local direction to world space with the event's
shading frame. -/
def MediumInteraction3f.to_world (ops : FloatOps F) (mi : MediumInteraction3f F)
    (v : Vector3f F) : Vector3f F :=
  mi.sh_frame.to_world ops v

namespace RayleighPhaseFunction

/-- `RayleighPhaseFunction::eval_rayleigh` (rayleigh.cpp, lines 42-45). -/
def eval_rayleigh (ops : FloatOps F) (cos_theta : F) : F :=
  ops.mul (ops.mul (ops.lit (3 / 16)) ops.invPi) (ops.add (ops.lit 1) (sqr ops cos_theta))

/-- Lines 54-58 of `RayleighPhaseFunction::sample`: the cosine of the sampled
polar angle as a function of the first coordinate of `sample2`. -/
def sample_cos_theta (ops : FloatOps F) (u : F) : F :=
  let z := ops.mul (ops.lit 2) (ops.sub (ops.mul (ops.lit 2) u) (ops.lit 1))
  let tmp := ops.sqrt (ops.add (sqr ops z) (ops.lit 1))
  let A := ops.cbrt (ops.add z tmp)
  let B := ops.cbrt (ops.sub z tmp)
  ops.add A B

/-- Lines 54-62 of `RayleighPhaseFunction::sample`: the sampled direction in
the local frame, before `to_world`. -/
def sample_local (ops : FloatOps F) (sample2 : Point2f F) : Vector3f F :=
  let cos_theta := sample_cos_theta ops sample2.x
  let sin_theta := safe_sqrt ops (ops.sub (ops.lit 1) (sqr ops cos_theta))
  let sc := sincos ops (ops.mul ops.twoPi sample2.y)
  let sin_phi := sc.1
  let cos_phi := sc.2
  ⟨ops.mul sin_theta cos_phi, ops.mul sin_theta sin_phi, cos_theta⟩

/-- `RayleighPhaseFunction::sample` (rayleigh.cpp, lines 47-67). The context
and `sample1` are accepted and not read; the mask is handed to the statement
`MTS_MASKED_FUNCTION` of line 52 and not read afterwards. -/
def sample (ops : FloatOps F) (_ctx : PhaseFunctionContext)
    (mi : MediumInteraction3f F) (_sample1 : F) (sample2 : Point2f F) (active : ops.Mask) :
    Vector3f F × F :=
  let _active := ops.MTS_MASKED_FUNCTION ProfilerPhase.PhaseFunctionSample active
  let cos_theta := sample_cos_theta ops sample2.x
  let wo := sample_local ops sample2
  let wo := mi.to_world ops wo
  let pdf := eval_rayleigh ops (ops.neg cos_theta)
  (wo, pdf)

/-- `RayleighPhaseFunction::eval` (rayleigh.cpp, lines 69-74). The mask is
handed to the statement `MTS_MASKED_FUNCTION` of line 72 and not read
afterwards. -/
def eval (ops : FloatOps F) (_ctx : PhaseFunctionContext)
    (mi : MediumInteraction3f F) (wo : Vector3f F) (active : ops.Mask) : F :=
  let _active := ops.MTS_MASKED_FUNCTION ProfilerPhase.PhaseFunctionEvaluate active
  eval_rayleigh ops (dot ops wo mi.wi)

/-- `RayleighPhaseFunction::to_string` (rayleigh.cpp, line 76). -/
def to_string : String := "RayleighPhaseFunction[]"

end RayleighPhaseFunction

end Generic

/-! ## Batched execution -/

section Batch

variable {F L : Type}

/-- Modelled from the spec: the batched numeric type and its mask come from the
array library, which is not part of the sources at hand. The spec describes
"a batch of N queries packed into SIMD-width lanes", a representation that
provides "elementwise arithmetic, elementwise select/blend (`mask ? a : b`),
and elementwise transcendental functions", and a mask that is a "boolean
vector, same width as the batched numeric type". Lanes are indexed by `L`;
every elementwise operation acts lane by lane, every constant is broadcast,
and the reductions `any` and `all` range over all lanes. The behaviour `mf`
of the statement macro on a batched mask is a parameter. -/
def FloatOps.batch (ops : FloatOps F) (L : Type) [Fintype L]
    (mf : ProfilerPhase → (L → ops.Mask) → (L → ops.Mask)) : FloatOps (L → F) where
  lit q := fun _ => ops.lit q
  add a b := fun i => ops.add (a i) (b i)
  sub a b := fun i => ops.sub (a i) (b i)
  mul a b := fun i => ops.mul (a i) (b i)
  neg a := fun i => ops.neg (a i)
  max a b := fun i => ops.max (a i) (b i)
  sqrt a := fun i => ops.sqrt (a i)
  cbrt a := fun i => ops.cbrt (a i)
  sin a := fun i => ops.sin (a i)
  cos a := fun i => ops.cos (a i)
  invPi := fun _ => ops.invPi
  twoPi := fun _ => ops.twoPi
  Mask := L → ops.Mask
  mask_lit b := fun _ => ops.mask_lit b
  mand m₁ m₂ := fun i => ops.mand (m₁ i) (m₂ i)
  lt a b := fun i => ops.lt (a i) (b i)
  select m a b := fun i => ops.select (m i) (a i) (b i)
  any m := decide (∃ i, ops.any (m i) = true)
  all m := decide (∀ i, ops.all (m i) = true)
  MTS_MASKED_FUNCTION := mf

/-- Lane `i` of a batched vector. -/
def Vector3f.lane (v : Vector3f (L → F)) (i : L) : Vector3f F := ⟨v.x i, v.y i, v.z i⟩

/-- Lane `i` of a batched point. -/
def Point2f.lane (v : Point2f (L → F)) (i : L) : Point2f F := ⟨v.x i, v.y i⟩

/-- Lane `i` of a batched frame. -/
def Frame3f.lane (f : Frame3f (L → F)) (i : L) : Frame3f F := ⟨f.s.lane i, f.t.lane i, f.n.lane i⟩

/-- Lane `i` of a batched scattering event record. -/
def MediumInteraction3f.lane (mi : MediumInteraction3f (L → F)) (i : L) :
    MediumInteraction3f F :=
  ⟨mi.p.lane i, mi.wi.lane i, mi.sh_frame.lane i⟩

/-- The batched vector whose lane `i` is `f i`. -/
def Vector3f.pack (f : L → Vector3f F) : Vector3f (L → F) :=
  ⟨fun i => (f i).x, fun i => (f i).y, fun i => (f i).z⟩

/-- The batched point whose lane `i` is `f i`. -/
def Point2f.pack (f : L → Point2f F) : Point2f (L → F) :=
  ⟨fun i => (f i).x, fun i => (f i).y⟩

/-- The batched event record whose lane `i` is `f i`. -/
def MediumInteraction3f.pack (f : L → MediumInteraction3f F) : MediumInteraction3f (L → F) :=
  ⟨Vector3f.pack fun i => (f i).p, Vector3f.pack fun i => (f i).wi,
    ⟨Vector3f.pack fun i => (f i).sh_frame.s, Vector3f.pack fun i => (f i).sh_frame.t,
      Vector3f.pack fun i => (f i).sh_frame.n⟩⟩

end Batch

/-! ## Calls through a batch of handles -/

section Handles

variable {F : Type}

/-- The virtual operations `sample` and `eval` of the interface `PhaseFunction`
at one numeric variant: what a handle resolves to. -/
structure PhaseFunctionObject (F : Type) (ops : FloatOps F) where
  sample : PhaseFunctionContext → MediumInteraction3f F → F → Point2f F → ops.Mask →
    Vector3f F × F
  eval : PhaseFunctionContext → MediumInteraction3f F → Vector3f F → ops.Mask → F

/-- The Rayleigh model as the object behind a handle. -/
def RayleighPhaseFunction.object (ops : FloatOps F) : PhaseFunctionObject F ops :=
  { sample := RayleighPhaseFunction.sample ops, eval := RayleighPhaseFunction.eval ops }

/-- Arguments of the function wrapped by `sample_vec`, for one packet of lanes
`W`: the handles (`none` is the null handle), the event records, the two
samples and the mask. -/
structure SampleVecArgs (F W H M : Type) where
  ptr : W → Option H
  mi : MediumInteraction3f (W → F)
  sample1 : W → F
  sample2 : Point2f (W → F)
  active : W → M

/-- Arguments of the function wrapped by `eval_vec`, for one packet of lanes
`W`: the handles, the event records, the outgoing directions and the mask. -/
structure EvalVecArgs (F W H M : Type) where
  ptr : W → Option H
  mi : MediumInteraction3f (W → F)
  wo : Vector3f (W → F)
  active : W → M

variable {W H : Type} [Fintype W] [DecidableEq H]

/-- Modelled from the spec: the call `ptr->sample (...)` on a batch of handles
is carried out by the array library, which is not part of the sources at hand.
The spec: "for each lane, resolve the handle to a concrete instance and invoke
`sample`/`eval`/`projected_area`/`flags` on it, with the per-lane results
packed back into a single batched result"; a disabled lane gets "a defined
(zero-weight or default) result". For lane `i` with handle `h`, the instance
`resolve h` is invoked on the whole packet under the mask of the active lanes
addressed to `h`, and lane `i` of its result is blended in under that mask;
a lane with the null handle gets zero. -/
def PhaseFunctionPtr.sample (ops : FloatOps F)
    (mf : ProfilerPhase → (W → ops.Mask) → (W → ops.Mask))
    (resolve : H → PhaseFunctionObject (W → F) (ops.batch W mf)) (ptr : W → Option H)
    (ctx : PhaseFunctionContext) (mi : MediumInteraction3f (W → F)) (sample1 : W → F)
    (sample2 : Point2f (W → F)) (active : W → ops.Mask) : Vector3f (W → F) × (W → F) :=
  let lane : W → Vector3f F × F := fun i =>
    match ptr i with
    | none => (⟨ops.lit 0, ops.lit 0, ops.lit 0⟩, ops.lit 0)
    | some h =>
      let m : W → ops.Mask := fun j =>
        ops.mand (active j) (ops.mask_lit (decide (ptr j = some h)))
      let out := (resolve h).sample ctx mi sample1 sample2 m
      (⟨ops.select (m i) (out.1.x i) (ops.lit 0), ops.select (m i) (out.1.y i) (ops.lit 0),
          ops.select (m i) (out.1.z i) (ops.lit 0)⟩,
        ops.select (m i) (out.2 i) (ops.lit 0))
  (Vector3f.pack fun i => (lane i).1, fun i => (lane i).2)

/-- Modelled from the spec: the call `ptr->eval (...)` on a batch of handles,
carried out like `PhaseFunctionPtr.sample`. -/
def PhaseFunctionPtr.eval (ops : FloatOps F)
    (mf : ProfilerPhase → (W → ops.Mask) → (W → ops.Mask))
    (resolve : H → PhaseFunctionObject (W → F) (ops.batch W mf)) (ptr : W → Option H)
    (ctx : PhaseFunctionContext) (mi : MediumInteraction3f (W → F)) (wo : Vector3f (W → F))
    (active : W → ops.Mask) : W → F :=
  fun i =>
    match ptr i with
    | none => ops.lit 0
    | some h =>
      let m : W → ops.Mask := fun j =>
        ops.mand (active j) (ops.mask_lit (decide (ptr j = some h)))
      let out := (resolve h).eval ctx mi wo m
      ops.select (m i) (out i) (ops.lit 0)

/-- Modelled from the spec: the binding helper `vectorize` is declared in a
header that is not part of the sources at hand. The adapter "wraps the
per-lane interface so that aggregate calls over whole batches ... are
automatically vectorized": the arguments arrive as packets indexed by `P`, the
wrapped function runs on each packet, and the results are put back packet by
packet. -/
def vectorize {P A B : Type} (f : A → B) : (P → A) → (P → B) :=
  fun args p => f (args p)

/-- The static method `sample_vec` (phase_v.cpp, lines 77-82): the vectorized
call of `sample` through the handles. The context is not an array and is
passed to every packet. -/
def sample_vec {P : Type} (ops : FloatOps F)
    (mf : ProfilerPhase → (W → ops.Mask) → (W → ops.Mask))
    (resolve : H → PhaseFunctionObject (W → F) (ops.batch W mf)) (ctx : PhaseFunctionContext) :
    (P → SampleVecArgs F W H ops.Mask) → (P → Vector3f (W → F) × (W → F)) :=
  vectorize fun a =>
    PhaseFunctionPtr.sample ops mf resolve a.ptr ctx a.mi a.sample1 a.sample2 a.active

/-- The static method `eval_vec` (phase_v.cpp, lines 83-88): the vectorized
call of `eval` through the handles. -/
def eval_vec {P : Type} (ops : FloatOps F)
    (mf : ProfilerPhase → (W → ops.Mask) → (W → ops.Mask))
    (resolve : H → PhaseFunctionObject (W → F) (ops.batch W mf)) (ctx : PhaseFunctionContext) :
    (P → EvalVecArgs F W H ops.Mask) → (P → W → F) :=
  vectorize fun a => PhaseFunctionPtr.eval ops mf resolve a.ptr ctx a.mi a.wo a.active

end Handles

/-! ## Flags and construction -/

/-- Modelled from the spec: the enumeration `PhaseFunctionFlags` is declared in
a header that is not part of the sources at hand; the spec describes it as a
"bitset over {isotropic, anisotropic, microflake-type, ...}". -/
inductive PhaseFunctionFlags where
  | None
  | Isotropic
  | Anisotropic
  | Microflake
  deriving DecidableEq, Repr

/-- Modelled from the spec: the bit of each flag, as an unsigned 32-bit value
(the unary `+` applied to a flag in the constructor). -/
def PhaseFunctionFlags.toUInt32 : PhaseFunctionFlags → Nat
  | .None => 0x00
  | .Isotropic => 0x01
  | .Anisotropic => 0x02
  | .Microflake => 0x04

/-- Property dictionary handed to a constructor: an identifier and string-keyed
entries. -/
structure Properties where
  id : String
  entries : List (String × String)
  deriving DecidableEq, Repr

/-- Data members of the base class `PhaseFunction` that the constructors set. -/
structure PhaseFunction where
  m_flags : Nat
  m_components : List Nat
  m_id : String
  deriving DecidableEq, Repr

/-- Modelled from the spec: the base-class constructor `PhaseFunction(props)`
is not part of the sources at hand; it leaves the flags empty and the list of
components empty ("each concrete model declares, at construction time, the
flag set for each of its scattering lobes"). -/
def PhaseFunction.new (props : Properties) : PhaseFunction :=
  { m_flags := PhaseFunctionFlags.None.toUInt32, m_components := [], m_id := props.id }

/-- Modelled from the spec: `flags(active)`, the aggregate flags with no
component selected. -/
def PhaseFunction.flags (pf : PhaseFunction) : Nat := pf.m_flags

/-- Modelled from the spec: `flags(index, active)`, the flags of one component. -/
def PhaseFunction.flags_at (pf : PhaseFunction) (index : Nat) : Option Nat :=
  pf.m_components.get? index

/-- Modelled from the spec: `component_count(active)`, the number of lobes. -/
def PhaseFunction.component_count (pf : PhaseFunction) : Nat := pf.m_components.length

/-- Bitwise OR of all per-component flags. -/
def PhaseFunction.components_or (pf : PhaseFunction) : Nat :=
  pf.m_components.foldl (fun acc c => acc ||| c) 0

/-- Constructor `RayleighPhaseFunction(props)` (rayleigh.cpp, lines 32-40):
the constructed base-class members and the warnings logged. `is_polarized`
is the compile-time test `is_polarized_v<Spectrum>`. -/
def RayleighPhaseFunction.new (is_polarized : Bool) (props : Properties) :
    PhaseFunction × List String :=
  let base := PhaseFunction.new props
  let log :=
    if is_polarized then
      ["Polarized version of Rayleigh phase function not implemented, " ++
        "falling back to scalar version"]
    else []
  let m_flags := PhaseFunctionFlags.Anisotropic.toUInt32
  ({ base with m_flags := m_flags, m_components := base.m_components ++ [m_flags] }, log)

/-! ## Extension trampoline -/

/-- Failure raised when a pure virtual function has no scripted override. -/
inductive PyError where
  | pure_virtual (cname : String) (fn : String)
  deriving DecidableEq, Repr

/-- The binding-library dispatch `PYBIND11_OVERLOAD_PURE`: return the result
of the scripted override when there is one, fail otherwise. -/
def PYBIND11_OVERLOAD_PURE {R : Type} (cname fn : String) (override : Option R) :
    Except PyError R :=
  match override with
  | some r => Except.ok r
  | none => Except.error (PyError.pure_virtual cname fn)

/-- The binding-library dispatch `PYBIND11_OVERLOAD`: return the result of the
scripted override when there is one, the base-class result otherwise. -/
def PYBIND11_OVERLOAD {R : Type} (override : Option R) (base : R) : Except PyError R :=
  match override with
  | some r => Except.ok r
  | none => Except.ok base

/-- The bound scripted object: for each operation, its override when the
script defines one. -/
structure PyOverrides (F M : Type) where
  sample : Option (PhaseFunctionContext → MediumInteraction3f F → F → Point2f F → M →
    Vector3f F × F)
  eval : Option (PhaseFunctionContext → MediumInteraction3f F → Vector3f F → M → F)
  projected_area : Option (MediumInteraction3f F → M → F)
  max_projected_area : Option F
  to_string : Option String

/-- The implementations the native base class `PhaseFunction` provides for its
non-pure virtual functions (their bodies are not part of the sources at hand). -/
structure PhaseFunctionBase (F M : Type) where
  projected_area : MediumInteraction3f F → M → F
  max_projected_area : F

namespace PyPhaseFunction

variable {F M : Type}

/-- `PyPhaseFunction::sample` (phase_v.cpp, lines 13-18). -/
def sample (obj : PyOverrides F M) (ctx : PhaseFunctionContext) (mi : MediumInteraction3f F)
    (sample1 : F) (sample2 : Point2f F) (active : M) : Except PyError (Vector3f F × F) :=
  PYBIND11_OVERLOAD_PURE "PhaseFunction" "sample"
    (obj.sample.map fun f => f ctx mi sample1 sample2 active)

/-- `PyPhaseFunction::eval` (phase_v.cpp, lines 20-23). -/
def eval (obj : PyOverrides F M) (ctx : PhaseFunctionContext) (mi : MediumInteraction3f F)
    (wo : Vector3f F) (active : M) : Except PyError F :=
  PYBIND11_OVERLOAD_PURE "PhaseFunction" "eval" (obj.eval.map fun f => f ctx mi wo active)

/-- `PyPhaseFunction::projected_area` (phase_v.cpp, lines 25-27). -/
def projected_area (base : PhaseFunctionBase F M) (obj : PyOverrides F M)
    (mi : MediumInteraction3f F) (active : M) : Except PyError F :=
  PYBIND11_OVERLOAD (obj.projected_area.map fun f => f mi active) (base.projected_area mi active)

/-- `PyPhaseFunction::max_projected_area` (phase_v.cpp, lines 29-31). -/
def max_projected_area (base : PhaseFunctionBase F M) (obj : PyOverrides F M) :
    Except PyError F :=
  PYBIND11_OVERLOAD obj.max_projected_area base.max_projected_area

/-- `PyPhaseFunction::to_string` (phase_v.cpp, lines 33-35). -/
def to_string (obj : PyOverrides F M) : Except PyError String :=
  PYBIND11_OVERLOAD_PURE "PhaseFunction" "to_string" obj.to_string

end PyPhaseFunction

/-- A scripted object that overrides nothing. -/
def PyOverrides.none (F M : Type) : PyOverrides F M :=
  { sample := Option.none, eval := Option.none, projected_area := Option.none,
    max_projected_area := Option.none, to_string := Option.none }

/-- A scripted object that overrides only the two sampling operations, with a
constant direction and a constant density. -/
def PyOverrides.sampleEvalOnly : PyOverrides ℚ Bool :=
  { sample := some fun _ _ _ _ _ => (⟨0, 0, 1⟩, 1), eval := some fun _ _ _ _ => 1,
    projected_area := Option.none, max_projected_area := Option.none,
    to_string := Option.none }

/-- A native base class whose projected areas are the constant `1`. -/
def PhaseFunctionBase.unit : PhaseFunctionBase ℚ Bool :=
  { projected_area := fun _ _ => 1, max_projected_area := 1 }

/-! ## Exact real arithmetic -/

/-- Real cube root: the sign-preserving inverse of the cube. -/
noncomputable def realCbrt (x : ℝ) : ℝ :=
  if 0 ≤ x then x ^ ((1 : ℝ) / 3) else -((-x) ^ ((1 : ℝ) / 3))

/-- The scalar variant read over the real numbers. The mask is one `bool`. The
statement macro, whose definition is outside the sources at hand, is given the
behaviour that leaves the mask as it is; `sample` and `eval` never read the
mask after that statement, so no result depends on this choice. -/
noncomputable def realOps : FloatOps ℝ where
  lit q := (q : ℝ)
  add a b := a + b
  sub a b := a - b
  mul a b := a * b
  neg a := -a
  max a b := Max.max a b
  sqrt := Real.sqrt
  cbrt := realCbrt
  sin := Real.sin
  cos := Real.cos
  invPi := Real.pi⁻¹
  twoPi := 2 * Real.pi
  Mask := Bool
  mask_lit b := b
  mand a b := a && b
  lt a b := decide (a < b)
  select m a b := if m then a else b
  any m := m
  all m := m
  MTS_MASKED_FUNCTION _ m := m

/-- An orthonormal shading frame over the reals. -/
def Frame3f.Orthonormal (f : Frame3f ℝ) : Prop :=
  dot realOps f.s f.s = 1 ∧ dot realOps f.t f.t = 1 ∧ dot realOps f.n f.n = 1 ∧
  dot realOps f.s f.t = 0 ∧ dot realOps f.s f.n = 0 ∧ dot realOps f.t f.n = 0

/-- Negation of a real vector. -/
def Vector3f.negate (a : Vector3f ℝ) : Vector3f ℝ := ⟨-a.x, -a.y, -a.z⟩

/-- The canonical frame `s = (1,0,0)`, `t = (0,1,0)`, `n = (0,0,1)`. -/
def Frame3f.canonical : Frame3f ℝ := ⟨⟨1, 0, 0⟩, ⟨0, 1, 0⟩, ⟨0, 0, 1⟩⟩

/-- A radiance-transport context with no component selected. -/
def PhaseFunctionContext.radiance : PhaseFunctionContext := ⟨TransportMode.Radiance, 0, 0⟩

/-- An event at the origin with the canonical frame and `wi` along the normal. -/
def MediumInteraction3f.alongNormal : MediumInteraction3f ℝ :=
  ⟨⟨0, 0, 0⟩, ⟨0, 0, 1⟩, Frame3f.canonical⟩

/-- An event at the origin with the canonical frame and `wi` along the first
tangent, hence orthogonal to the normal. -/
def MediumInteraction3f.alongTangent : MediumInteraction3f ℝ :=
  ⟨⟨0, 0, 0⟩, ⟨1, 0, 0⟩, Frame3f.canonical⟩

/-- The direction with polar angle `θ` and azimuth `φ` in the local frame. -/
def polarDirection (ops : FloatOps ℝ) (θ φ : ℝ) : Vector3f ℝ :=
  ⟨ops.mul (ops.sin θ) (ops.cos φ), ops.mul (ops.sin θ) (ops.sin φ), ops.cos θ⟩

/-- An event all of whose coordinates hold the value `g`: a degenerate record
as an inactive lane may contain. -/
def MediumInteraction3f.garbage (g : ℝ) : MediumInteraction3f ℝ :=
  ⟨⟨g, g, g⟩, ⟨g, g, g⟩, ⟨⟨g, g, g⟩, ⟨g, g, g⟩, ⟨g, g, g⟩⟩⟩

/-- A two-lane batch of events: lane `true` is the event along the normal,
lane `false` is filled with the value `g`. -/
def MediumInteraction3f.twoLane (g : ℝ) : MediumInteraction3f (Bool → ℝ) :=
  MediumInteraction3f.pack fun b =>
    if b then MediumInteraction3f.alongNormal else MediumInteraction3f.garbage g

/-- A two-lane batch of angular samples: lane `true` is `(1, 0)`, lane
`false` is filled with the value `g`. -/
def Point2f.twoLane (g : ℝ) : Point2f (Bool → ℝ) :=
  Point2f.pack fun b => if b then ⟨1, 0⟩ else ⟨g, g⟩

/-- A two-lane batch of directions: lane `true` is `(0, 0, 1)`, lane `false`
is filled with the value `g`. -/
def Vector3f.twoLane (g : ℝ) : Vector3f (Bool → ℝ) :=
  Vector3f.pack fun b => if b then ⟨0, 0, 1⟩ else ⟨g, g, g⟩

/-- One packet of two lanes for `sample_vec`: lane `true` is active, addressed
to the one registered instance, and holds the event along the normal with
`sample2 = (1, 0)`; lane `false` is inactive, has the null handle and is filled
with the value `g`. -/
def SampleVecArgs.twoLane (g : ℝ) : SampleVecArgs ℝ Bool Unit Bool :=
  { ptr := fun b => if b then some () else none, mi := MediumInteraction3f.twoLane g,
    sample1 := fun _ => g, sample2 := Point2f.twoLane g, active := fun b => b }

/-- One packet of two lanes for `eval_vec`, laid out like `SampleVecArgs.twoLane`
with the outgoing direction `(0, 0, 1)` in lane `true`. -/
def EvalVecArgs.twoLane (g : ℝ) : EvalVecArgs ℝ Bool Unit Bool :=
  { ptr := fun b => if b then some () else none, mi := MediumInteraction3f.twoLane g,
    wo := Vector3f.twoLane g, active := fun b => b }

/-! ## Lemmas on the real backend -/

theorem realCbrt_cube (x : ℝ) : realCbrt x ^ 3 = x := by
  unfold realCbrt
  by_cases h : 0 ≤ x
  · rw [if_pos h, ← Real.rpow_natCast, ← Real.rpow_mul h]
    norm_num
  · rw [if_neg h]
    have h' : 0 ≤ -x := by linarith
    have : ((-x) ^ ((1 : ℝ) / 3)) ^ 3 = -x := by
      rw [← Real.rpow_natCast, ← Real.rpow_mul h']
      norm_num
    calc (-((-x) ^ ((1 : ℝ) / 3))) ^ 3 = -(((-x) ^ ((1 : ℝ) / 3)) ^ 3) := by ring
      _ = x := by rw [this]; ring

theorem realCbrt_one : realCbrt 1 = 1 := by
  simp [realCbrt]

theorem realCbrt_neg_one : realCbrt (-1) = -1 := by
  simp [realCbrt]

open RayleighPhaseFunction

theorem realOps_lit (q : ℚ) : realOps.lit q = (q : ℝ) := rfl

theorem realOps_add (a b : ℝ) : realOps.add a b = a + b := rfl

theorem realOps_sub (a b : ℝ) : realOps.sub a b = a - b := rfl

theorem realOps_mul (a b : ℝ) : realOps.mul a b = a * b := rfl

theorem realOps_neg (a : ℝ) : realOps.neg a = -a := rfl

theorem realOps_max (a b : ℝ) : realOps.max a b = max a b := rfl

theorem realOps_sqrt (a : ℝ) : realOps.sqrt a = Real.sqrt a := rfl

theorem realOps_sin (a : ℝ) : realOps.sin a = Real.sin a := rfl

theorem realOps_cos (a : ℝ) : realOps.cos a = Real.cos a := rfl

theorem realOps_twoPi : realOps.twoPi = 2 * Real.pi := rfl


/-- The sampled cosine solves the depressed cubic `c^3 + 3 c = 8 u - 4`. -/
theorem sample_cos_theta_cubic (u : ℝ) :
    sample_cos_theta realOps u ^ 3 + 3 * sample_cos_theta realOps u = 8 * u - 4 := by
  simp only [sample_cos_theta, realOps, sqr]
  set z : ℝ := ((2 : ℚ) : ℝ) * (((2 : ℚ) : ℝ) * u - ((1 : ℚ) : ℝ)) with hz
  set t : ℝ := Real.sqrt (z * z + ((1 : ℚ) : ℝ)) with ht
  have ht2 : t ^ 2 = z * z + 1 := by
    rw [ht, Real.sq_sqrt]
    · norm_num
    · have := mul_self_nonneg z
      norm_num
      linarith
  have hA := realCbrt_cube (z + t)
  have hB := realCbrt_cube (z - t)
  set A := realCbrt (z + t)
  set B := realCbrt (z - t)
  have hAB3 : (A * B) ^ 3 = -1 := by
    rw [mul_pow, hA, hB]
    nlinarith [ht2]
  have hAB : A * B = -1 := by
    have h0 : (A * B + 1) * ((A * B) ^ 2 - A * B + 1) = 0 := by
      have : (A * B + 1) * ((A * B) ^ 2 - A * B + 1) = (A * B) ^ 3 + 1 := by ring
      rw [this, hAB3]; norm_num
    rcases mul_eq_zero.mp h0 with h1 | h1
    · linarith
    · nlinarith [sq_nonneg (A * B - 1), sq_nonneg (A * B)]
  have hzu : z = 4 * u - 2 := by
    rw [hz]; norm_num; ring
  have : (A + B) ^ 3 + 3 * (A + B) = A ^ 3 + B ^ 3 + (3 * (A * B) + 3) * (A + B) := by ring
  rw [this, hA, hB, hAB, hzu]
  ring

theorem eval_rayleigh_real (c : ℝ) :
    eval_rayleigh realOps c = 3 / (16 * Real.pi) * (1 + c ^ 2) := by
  simp only [eval_rayleigh, realOps, sqr]
  have hpi : Real.pi ≠ 0 := Real.pi_ne_zero
  field_simp
  ring

theorem dot_real (a b : Vector3f ℝ) : dot realOps a b = a.x * b.x + a.y * b.y + a.z * b.z := rfl

theorem sample_cos_theta_real (u : ℝ) :
    sample_cos_theta realOps u
      = realCbrt (2 * (2 * u - 1) + Real.sqrt ((2 * (2 * u - 1)) ^ 2 + 1))
        + realCbrt (2 * (2 * u - 1) - Real.sqrt ((2 * (2 * u - 1)) ^ 2 + 1)) := by
  simp only [sample_cos_theta, realOps, sqr]
  norm_num
  ring_nf

theorem sample_cos_theta_half : sample_cos_theta realOps (1 / 2) = 0 := by
  have h := sample_cos_theta_cubic (1 / 2)
  set c := sample_cos_theta realOps (1 / 2)
  have h0 : c * (c ^ 2 + 3) = 0 := by
    have : c * (c ^ 2 + 3) = c ^ 3 + 3 * c := by ring
    rw [this, h]; norm_num
  rcases mul_eq_zero.mp h0 with h1 | h1
  · exact h1
  · nlinarith [sq_nonneg c]

theorem sample_cos_theta_mem (u : ℝ) (h0 : 0 ≤ u) (h1 : u ≤ 1) :
    -1 ≤ sample_cos_theta realOps u ∧ sample_cos_theta realOps u ≤ 1 := by
  have h := sample_cos_theta_cubic u
  set c := sample_cos_theta realOps u
  constructor
  · by_contra hc
    push_neg at hc
    nlinarith [mul_pos (show (0 : ℝ) < -1 - c by linarith)
      (show (0 : ℝ) < c ^ 2 - c + 4 by nlinarith [sq_nonneg (c - 1)])]
  · by_contra hc
    push_neg at hc
    nlinarith [mul_pos (show (0 : ℝ) < c - 1 by linarith)
      (show (0 : ℝ) < c ^ 2 + c + 4 by nlinarith [sq_nonneg (c + 1)])]

theorem integral_reference_density (a b : ℝ) :
    ∫ x in a..b, (3 / 8 : ℝ) * (1 + x ^ 2) = (3 / 8) * ((b - a) + (b ^ 3 - a ^ 3) / 3) := by
  rw [intervalIntegral.integral_const_mul, intervalIntegral.integral_add
    (continuous_const.intervalIntegrable _ _) ((continuous_pow 2).intervalIntegrable _ _),
    integral_pow, intervalIntegral.integral_const]
  simp only [smul_eq_mul]
  norm_num

theorem integral_eval_rayleigh (a b : ℝ) :
    2 * Real.pi * (∫ x in a..b, eval_rayleigh realOps x)
      = (3 / 8) * ((b - a) + (b ^ 3 - a ^ 3) / 3) := by
  have hpi : Real.pi ≠ 0 := Real.pi_ne_zero
  have hc : ∀ X : ℝ, 2 * Real.pi * (3 / (16 * Real.pi) * X) = 3 / 8 * X := by
    intro X
    field_simp
    ring
  rw [← hc]
  congr 1
  simp only [eval_rayleigh_real]
  rw [intervalIntegral.integral_const_mul, intervalIntegral.integral_add
    (continuous_const.intervalIntegrable _ _) ((continuous_pow 2).intervalIntegrable _ _),
    integral_pow, intervalIntegral.integral_const]
  simp only [smul_eq_mul]
  norm_num

theorem canonical_orthonormal : Frame3f.canonical.Orthonormal := by
  simp [Frame3f.Orthonormal, Frame3f.canonical, dot_real]

theorem dot_to_world_normal (f : Frame3f ℝ) (hf : f.Orthonormal) (v : Vector3f ℝ) :
    dot realOps (f.to_world realOps v) f.n = v.z := by
  obtain ⟨_, _, h3, _, h5, h6⟩ := hf
  simp only [dot_real, Frame3f.to_world, Vector3f.add, Vector3f.scale] at *
  simp only [realOps] at *
  linear_combination v.x * h5 + v.y * h6 + v.z * h3

theorem dot_to_world_self (f : Frame3f ℝ) (hf : f.Orthonormal) (v : Vector3f ℝ) :
    dot realOps (f.to_world realOps v) (f.to_world realOps v) = dot realOps v v := by
  obtain ⟨h1, h2, h3, h4, h5, h6⟩ := hf
  simp only [dot_real, Frame3f.to_world, Vector3f.add, Vector3f.scale] at *
  simp only [realOps] at *
  linear_combination v.x ^ 2 * h1 + v.y ^ 2 * h2 + v.z ^ 2 * h3 + 2 * v.x * v.y * h4
    + 2 * v.x * v.z * h5 + 2 * v.y * v.z * h6

theorem dot_negate (a b : Vector3f ℝ) : dot realOps a b.negate = -dot realOps a b := by
  simp only [dot_real, Vector3f.negate]
  ring

theorem eval_rayleigh_even (c : ℝ) :
    eval_rayleigh realOps (realOps.neg c) = eval_rayleigh realOps c := by
  show eval_rayleigh realOps (-c) = eval_rayleigh realOps c
  rw [eval_rayleigh_real, eval_rayleigh_real]
  ring

theorem sample_local_z (sample2 : Point2f ℝ) :
    (sample_local realOps sample2).z = sample_cos_theta realOps sample2.x := rfl

theorem sample_fst (ctx : PhaseFunctionContext) (mi : MediumInteraction3f ℝ)
    (sample1 : ℝ) (sample2 : Point2f ℝ) (active : Bool) :
    (sample realOps ctx mi sample1 sample2 active).1
      = mi.sh_frame.to_world realOps (sample_local realOps sample2) := rfl

theorem sample_snd (ctx : PhaseFunctionContext) (mi : MediumInteraction3f ℝ)
    (sample1 : ℝ) (sample2 : Point2f ℝ) (active : Bool) :
    (sample realOps ctx mi sample1 sample2 active).2
      = eval_rayleigh realOps (realOps.neg (sample_cos_theta realOps sample2.x)) := rfl

theorem dot_sample_normal (ctx : PhaseFunctionContext) (mi : MediumInteraction3f ℝ)
    (hf : mi.sh_frame.Orthonormal) (sample1 : ℝ) (sample2 : Point2f ℝ) (active : Bool) :
    dot realOps (sample realOps ctx mi sample1 sample2 active).1 mi.sh_frame.n
      = sample_cos_theta realOps sample2.x := by
  rw [sample_fst, dot_to_world_normal _ hf, sample_local_z]

theorem polar_integral :
    ∫ θ in (0 : ℝ)..Real.pi, 3 / (16 * Real.pi) * (1 + Real.cos θ ^ 2) * Real.sin θ
      = 1 / (2 * Real.pi) := by
  have hpi : Real.pi ≠ 0 := Real.pi_ne_zero
  have hderiv : ∀ θ ∈ Set.uIcc 0 Real.pi,
      HasDerivAt (fun θ => 3 / (16 * Real.pi) * (-(Real.cos θ) - Real.cos θ ^ 3 / 3))
        (3 / (16 * Real.pi) * (1 + Real.cos θ ^ 2) * Real.sin θ) θ := by
    intro θ _
    have h1 := Real.hasDerivAt_cos θ
    have h := ((h1.neg).sub ((h1.pow 3).div_const 3)).const_mul (3 / (16 * Real.pi))
    convert h using 1
    simp
    ring
  rw [intervalIntegral.integral_eq_sub_of_hasDerivAt hderiv
    (Continuous.intervalIntegrable (by continuity) _ _)]
  simp only [Real.cos_pi, Real.cos_zero]
  field_simp
  ring

theorem sample_local_real (u v : ℝ) :
    sample_local realOps ⟨u, v⟩
      = ⟨Real.sqrt (max (1 - sample_cos_theta realOps u ^ 2) 0) * Real.cos (2 * Real.pi * v),
         Real.sqrt (max (1 - sample_cos_theta realOps u ^ 2) 0) * Real.sin (2 * Real.pi * v),
         sample_cos_theta realOps u⟩ := by
  simp only [sample_local, safe_sqrt, sincos, sqr, realOps_lit, realOps_sub, realOps_mul,
    realOps_max, realOps_sqrt, realOps_sin, realOps_cos, realOps_twoPi, Rat.cast_one,
    Rat.cast_zero, sq]

theorem sample_local_half_zero : sample_local realOps ⟨1 / 2, 0⟩ = ⟨1, 0, 0⟩ := by
  rw [sample_local_real, sample_cos_theta_half]
  norm_num

theorem sample_local_dot_self (u v : ℝ) (h0 : 0 ≤ u) (h1 : u ≤ 1) :
    dot realOps (sample_local realOps ⟨u, v⟩) (sample_local realOps ⟨u, v⟩) = 1 := by
  obtain ⟨hl, hr⟩ := sample_cos_theta_mem u h0 h1
  rw [sample_local_real, dot_real]
  set c := sample_cos_theta realOps u
  have hc : 0 ≤ 1 - c ^ 2 := by nlinarith
  rw [max_eq_left hc]
  have hs : Real.sqrt (1 - c ^ 2) * Real.sqrt (1 - c ^ 2) = 1 - c ^ 2 := Real.mul_self_sqrt hc
  have htrig := Real.sin_sq_add_cos_sq (2 * Real.pi * v)
  simp only
  linear_combination (Real.cos (2 * Real.pi * v) ^ 2 + Real.sin (2 * Real.pi * v) ^ 2) * hs
    + (1 - c ^ 2) * htrig

theorem orthonormal_completion_aux (a b c : ℝ) (h : a * a + b * b + c * c = 1) (hc : 0 ≤ c) :
    (1 - a ^ 2 / (1 + c)) * (1 - a ^ 2 / (1 + c))
          + (-(a * b) / (1 + c)) * (-(a * b) / (1 + c)) + (-a) * (-a) = 1
      ∧ (-(a * b) / (1 + c)) * (-(a * b) / (1 + c))
          + (1 - b ^ 2 / (1 + c)) * (1 - b ^ 2 / (1 + c)) + (-b) * (-b) = 1
      ∧ (1 - a ^ 2 / (1 + c)) * (-(a * b) / (1 + c))
          + (-(a * b) / (1 + c)) * (1 - b ^ 2 / (1 + c)) + (-a) * (-b) = 0
      ∧ (1 - a ^ 2 / (1 + c)) * a + (-(a * b) / (1 + c)) * b + (-a) * c = 0
      ∧ (-(a * b) / (1 + c)) * a + (1 - b ^ 2 / (1 + c)) * b + (-b) * c = 0 := by
  have h1 : (1 + c) ≠ 0 := by linarith
  refine ⟨?_, ?_, ?_, ?_, ?_⟩
  · field_simp
    linear_combination (a ^ 2) * h
  · field_simp
    linear_combination (b ^ 2) * h
  · field_simp
    linear_combination (a * b * (1 + c) ^ 2) * h
  · field_simp
    linear_combination (-a) * h
  · field_simp
    linear_combination (-b * (1 + c)) * h

theorem exists_orthonormal_frame (w : Vector3f ℝ) (h : dot realOps w w = 1) :
    ∃ s t : Vector3f ℝ, Frame3f.Orthonormal ⟨s, t, w⟩ := by
  have hw : w.x * w.x + w.y * w.y + w.z * w.z = 1 := h
  by_cases hc : 0 ≤ w.z
  · obtain ⟨e1, e2, e3, e4, e5⟩ := orthonormal_completion_aux w.x w.y w.z hw hc
    exact ⟨⟨1 - w.x ^ 2 / (1 + w.z), -(w.x * w.y) / (1 + w.z), -w.x⟩,
      ⟨-(w.x * w.y) / (1 + w.z), 1 - w.y ^ 2 / (1 + w.z), -w.y⟩, e1, e2, hw, e3, e4, e5⟩
  · have hw' : w.x * w.x + w.y * w.y + (-w.z) * (-w.z) = 1 := by rw [neg_mul_neg]; exact hw
    obtain ⟨e1, e2, e3, e4, e5⟩ :=
      orthonormal_completion_aux w.x w.y (-w.z) hw' (by linarith)
    refine ⟨⟨1 - w.x ^ 2 / (1 + -w.z), -(w.x * w.y) / (1 + -w.z), w.x⟩,
      ⟨-(w.x * w.y) / (1 + -w.z), 1 - w.y ^ 2 / (1 + -w.z), w.y⟩, ?_, ?_, hw, ?_, ?_, ?_⟩
    · simp only [dot_real]
      linear_combination e1
    · simp only [dot_real]
      linear_combination e2
    · simp only [dot_real]
      linear_combination e3
    · simp only [dot_real]
      linear_combination e4
    · simp only [dot_real]
      linear_combination e5

/-! ## Inversion of the cumulative distribution -/

/-- Claim C3: for every real `u` the sampled cosine is
`cbrt (z + t) + cbrt (z - t)` with `z = 2 (2 u - 1)` and `t = sqrt (z^2 + 1)`,
it satisfies `c^3 + 3 c = 8 u - 4`, the cumulative distribution
`(c^3 + 3 c + 4) / 8` of the density `(3/8) (1 + c^2)` on `[-1, 1]` takes the
value `u` there (also when written as `2 pi` times the integral of
`eval_rayleigh`), and `u = 1/2` gives the cosine `0`. -/
theorem C3_sample_inverts_cdf (u : ℝ) :
    sample_cos_theta realOps u
        = realCbrt (2 * (2 * u - 1) + Real.sqrt ((2 * (2 * u - 1)) ^ 2 + 1))
          + realCbrt (2 * (2 * u - 1) - Real.sqrt ((2 * (2 * u - 1)) ^ 2 + 1))
      ∧ sample_cos_theta realOps u ^ 3 + 3 * sample_cos_theta realOps u = 8 * u - 4
      ∧ (∀ c : ℝ, ∫ x in (-1 : ℝ)..c, (3 / 8 : ℝ) * (1 + x ^ 2) = (c ^ 3 + 3 * c + 4) / 8)
      ∧ (sample_cos_theta realOps u ^ 3 + 3 * sample_cos_theta realOps u + 4) / 8 = u
      ∧ 2 * Real.pi * (∫ x in (-1 : ℝ)..(sample_cos_theta realOps u), eval_rayleigh realOps x)
          = u
      ∧ sample_cos_theta realOps (1 / 2) = 0 := by
  have hcub := sample_cos_theta_cubic u
  refine ⟨sample_cos_theta_real u, hcub, ?_, ?_, ?_, sample_cos_theta_half⟩
  · intro c
    rw [integral_reference_density]
    ring
  · rw [hcub]; ring
  · rw [integral_eval_rayleigh]
    linear_combination (1 / 8 : ℝ) * hcub

/-! ## Normalization -/

/-- Claim C4: `2 pi` times the integral over `c` in `[-1, 1]` of the density
`eval_rayleigh c = 3 / (16 pi) * (1 + c^2)` equals `1`; and for every event
whose orthonormal frame has `wi` as its normal, the integral of `eval` over the
sphere of outgoing directions, in polar coordinates about `wi` (polar angle
`θ`, azimuth `φ`, area element `sin θ`), equals `1`; every unit `wi` is the
normal of such a frame. -/
theorem C4_normalization :
    2 * Real.pi * (∫ c in (-1 : ℝ)..1, eval_rayleigh realOps c) = 1
      ∧ 2 * Real.pi * (∫ c in (-1 : ℝ)..1, 3 / (16 * Real.pi) * (1 + c ^ 2)) = 1
      ∧ (∀ (ctx : PhaseFunctionContext) (mi : MediumInteraction3f ℝ) (active : Bool),
          mi.sh_frame.Orthonormal → mi.wi = mi.sh_frame.n →
          ∫ φ in (0 : ℝ)..2 * Real.pi, ∫ θ in (0 : ℝ)..Real.pi,
            eval realOps ctx mi (mi.to_world realOps (polarDirection realOps θ φ)) active
              * Real.sin θ = 1)
      ∧ ∀ wi : Vector3f ℝ, dot realOps wi wi = 1 →
          ∃ s t : Vector3f ℝ, Frame3f.Orthonormal ⟨s, t, wi⟩
            ∧ ∀ (ctx : PhaseFunctionContext) (p : Vector3f ℝ) (active : Bool),
              ∫ φ in (0 : ℝ)..2 * Real.pi, ∫ θ in (0 : ℝ)..Real.pi,
                eval realOps ctx ⟨p, wi, ⟨s, t, wi⟩⟩
                    (Frame3f.to_world realOps ⟨s, t, wi⟩ (polarDirection realOps θ φ)) active
                  * Real.sin θ = 1 := by
  have hpi : Real.pi ≠ 0 := Real.pi_ne_zero
  have h : 2 * Real.pi * (∫ c in (-1 : ℝ)..1, eval_rayleigh realOps c) = 1 := by
    rw [integral_eval_rayleigh]
    norm_num
  have hsphere : ∀ (ctx : PhaseFunctionContext) (mi : MediumInteraction3f ℝ) (active : Bool),
      mi.sh_frame.Orthonormal → mi.wi = mi.sh_frame.n →
      ∫ φ in (0 : ℝ)..2 * Real.pi, ∫ θ in (0 : ℝ)..Real.pi,
        eval realOps ctx mi (mi.to_world realOps (polarDirection realOps θ φ)) active
          * Real.sin θ = 1 := ?_
  · refine ⟨h, ?_, hsphere, ?_⟩
    · simpa only [eval_rayleigh_real] using h
    · intro wi hunit
      obtain ⟨s, t, hf⟩ := exists_orthonormal_frame wi hunit
      exact ⟨s, t, hf, fun ctx p active => hsphere ctx ⟨p, wi, ⟨s, t, wi⟩⟩ active hf rfl⟩
  · intro ctx mi active hf hwi
    have key : ∀ θ φ : ℝ,
        eval realOps ctx mi (mi.to_world realOps (polarDirection realOps θ φ)) active
            * Real.sin θ
          = 3 / (16 * Real.pi) * (1 + Real.cos θ ^ 2) * Real.sin θ := by
      intro θ φ
      have hd : dot realOps (mi.to_world realOps (polarDirection realOps θ φ)) mi.wi
          = Real.cos θ := by
        rw [hwi]
        exact dot_to_world_normal _ hf _
      simp only [eval, hd, eval_rayleigh_real]
    simp only [key, polar_integral, intervalIntegral.integral_const, smul_eq_mul]
    field_simp

/-- Claim C4 at the event with the canonical frame and `wi = (0, 0, 1)`. -/
theorem C4_normalization_witness :
    ∫ φ in (0 : ℝ)..2 * Real.pi, ∫ θ in (0 : ℝ)..Real.pi,
      eval realOps PhaseFunctionContext.radiance MediumInteraction3f.alongNormal
          (MediumInteraction3f.alongNormal.to_world realOps (polarDirection realOps θ φ)) true
        * Real.sin θ = 1 :=
  C4_normalization.2.2.1 PhaseFunctionContext.radiance MediumInteraction3f.alongNormal true
    canonical_orthonormal rfl

/-! ## Evaluation -/

/-- Claim C2: over the reals, `eval` is the reference density
`3 / (16 pi) * (1 + dot(wo, wi)^2)` for every context, event, outgoing
direction and mask; and when `wi` has unit length, `eval` at `wo = wi` is
`3 / (8 pi)`. -/
theorem C2_eval_eq_reference_density (ctx : PhaseFunctionContext) (mi : MediumInteraction3f ℝ)
    (wo : Vector3f ℝ) (active : Bool) :
    eval realOps ctx mi wo active
        = 3 / (16 * Real.pi) * (1 + (wo.x * mi.wi.x + wo.y * mi.wi.y + wo.z * mi.wi.z) ^ 2)
      ∧ (mi.wi.x ^ 2 + mi.wi.y ^ 2 + mi.wi.z ^ 2 = 1 →
          eval realOps ctx mi mi.wi active = 3 / (16 * Real.pi) * 2
            ∧ eval realOps ctx mi mi.wi active = 3 / (8 * Real.pi)) := by
  have h : ∀ w : Vector3f ℝ, eval realOps ctx mi w active
      = 3 / (16 * Real.pi) * (1 + (w.x * mi.wi.x + w.y * mi.wi.y + w.z * mi.wi.z) ^ 2) := by
    intro w
    simp only [eval, eval_rayleigh_real, dot_real]
  refine ⟨h wo, fun hunit => ?_⟩
  have hd : mi.wi.x * mi.wi.x + mi.wi.y * mi.wi.y + mi.wi.z * mi.wi.z = 1 := by
    rw [← hunit]; ring
  rw [h mi.wi, hd]
  have hpi : Real.pi ≠ 0 := Real.pi_ne_zero
  constructor
  · norm_num
  · field_simp
    ring

/-- Claim C2 at the event with `wi = (0, 0, 1)`: `eval` at `wo = wi` is `3 / (8 pi)`. -/
theorem C2_eval_eq_reference_density_witness :
    eval realOps ⟨TransportMode.Radiance, 0, 0⟩
        ⟨⟨0, 0, 0⟩, ⟨0, 0, 1⟩, ⟨⟨1, 0, 0⟩, ⟨0, 1, 0⟩, ⟨0, 0, 1⟩⟩⟩ ⟨0, 0, 1⟩ true
      = 3 / (8 * Real.pi) :=
  ((C2_eval_eq_reference_density ⟨TransportMode.Radiance, 0, 0⟩
      ⟨⟨0, 0, 0⟩, ⟨0, 0, 1⟩, ⟨⟨1, 0, 0⟩, ⟨0, 1, 0⟩, ⟨0, 0, 1⟩⟩⟩ ⟨0, 0, 1⟩ true).2
    (by norm_num)).2

/-- Claim C6: `eval` does not read the sampling context (transport mode,
sampler, component) nor any field of the event other than `wi`: two calls with
the same `wo` and events that agree on `wi` return the same value, for every
numeric backend. -/
theorem C6_eval_independent_of_context {F : Type} (ops : FloatOps F)
    (ctx₁ ctx₂ : PhaseFunctionContext) (mi₁ mi₂ : MediumInteraction3f F) (wo : Vector3f F)
    (active₁ active₂ : ops.Mask) (hwi : mi₁.wi = mi₂.wi) :
    eval ops ctx₁ mi₁ wo active₁ = eval ops ctx₂ mi₂ wo active₂ := by
  simp only [eval, hwi]

/-- Claim C6 on a radiance and an importance context whose events differ in
position and frame but share `wi`. -/
theorem C6_eval_independent_of_context_witness :
    eval realOps ⟨TransportMode.Radiance, 0, 0⟩
        ⟨⟨0, 0, 0⟩, ⟨0, 0, 1⟩, ⟨⟨1, 0, 0⟩, ⟨0, 1, 0⟩, ⟨0, 0, 1⟩⟩⟩ ⟨0, 1, 0⟩ true
      = eval realOps ⟨TransportMode.Importance, 7, 3⟩
        ⟨⟨5, 5, 5⟩, ⟨0, 0, 1⟩, ⟨⟨0, 1, 0⟩, ⟨1, 0, 0⟩, ⟨0, 0, -1⟩⟩⟩ ⟨0, 1, 0⟩ false :=
  C6_eval_independent_of_context realOps _ _ _ _ _ _ _ rfl

/-! ## Consistency of sampling and evaluation -/

/-- Claim C1 as stated fails: on the event with the canonical (orthonormal)
frame and the unit incoming direction `wi = (1, 0, 0)`, the call of `sample`
with `sample2 = (1/2, 0)` returns the density `3 / (16 pi)`, while `eval` at
the returned direction is `3 / (8 pi)`. -/
theorem C1_sample_pdf_ne_eval_off_normal :
    Frame3f.canonical.Orthonormal
      ∧ dot realOps MediumInteraction3f.alongTangent.wi MediumInteraction3f.alongTangent.wi = 1
      ∧ (sample realOps PhaseFunctionContext.radiance MediumInteraction3f.alongTangent 0
          ⟨1 / 2, 0⟩ true).2 = 3 / (16 * Real.pi)
      ∧ eval realOps PhaseFunctionContext.radiance MediumInteraction3f.alongTangent
          (sample realOps PhaseFunctionContext.radiance MediumInteraction3f.alongTangent 0
            ⟨1 / 2, 0⟩ true).1 true = 3 / (8 * Real.pi)
      ∧ (sample realOps PhaseFunctionContext.radiance MediumInteraction3f.alongTangent 0
          ⟨1 / 2, 0⟩ true).2
        ≠ eval realOps PhaseFunctionContext.radiance MediumInteraction3f.alongTangent
          (sample realOps PhaseFunctionContext.radiance MediumInteraction3f.alongTangent 0
            ⟨1 / 2, 0⟩ true).1 true := by
  have hpi : Real.pi ≠ 0 := Real.pi_ne_zero
  have hpos : 0 < Real.pi := Real.pi_pos
  have h1 : (sample realOps PhaseFunctionContext.radiance MediumInteraction3f.alongTangent 0
      ⟨1 / 2, 0⟩ true).2 = 3 / (16 * Real.pi) := by
    rw [sample_snd, eval_rayleigh_even, eval_rayleigh_real, sample_cos_theta_half]
    norm_num
  have h2 : eval realOps PhaseFunctionContext.radiance MediumInteraction3f.alongTangent
      (sample realOps PhaseFunctionContext.radiance MediumInteraction3f.alongTangent 0
        ⟨1 / 2, 0⟩ true).1 true = 3 / (8 * Real.pi) := by
    rw [sample_fst, sample_local_half_zero]
    simp only [eval, eval_rayleigh_real, dot_real, MediumInteraction3f.alongTangent,
      Frame3f.canonical, Frame3f.to_world, Vector3f.add, Vector3f.scale, realOps_add,
      realOps_mul]
    field_simp
    ring
  refine ⟨canonical_orthonormal, ?_, h1, h2, ?_⟩
  · simp [dot_real, MediumInteraction3f.alongTangent]
  · rw [h1, h2]
    have hlt : (3 : ℝ) / (16 * Real.pi) < 3 / (8 * Real.pi) := by
      have hdouble : (3 : ℝ) / (8 * Real.pi) = 2 * (3 / (16 * Real.pi)) := by
        field_simp
        ring
      have hpos16 : (0 : ℝ) < 3 / (16 * Real.pi) := by positivity
      linarith
    exact ne_of_lt hlt

/-- Claim C1, amended: for every event whose shading frame is orthonormal and
whose incoming direction lies along the frame normal (`wi = n` or `wi = -n`),
and for every `sample2 = (u, v)`, the density returned by `sample` equals
`eval` at the returned direction; that is,
`eval_rayleigh (-cos_theta) = eval_rayleigh (dot (to_world wo_local) wi)`. -/
theorem C1_sample_pdf_eq_eval (ctx ctx' : PhaseFunctionContext) (mi : MediumInteraction3f ℝ)
    (sample1 : ℝ) (sample2 : Point2f ℝ) (active active' : Bool)
    (hf : mi.sh_frame.Orthonormal)
    (hwi : mi.wi = mi.sh_frame.n ∨ mi.wi = mi.sh_frame.n.negate) :
    (sample realOps ctx mi sample1 sample2 active).2
        = eval realOps ctx' mi (sample realOps ctx mi sample1 sample2 active).1 active'
      ∧ eval_rayleigh realOps (realOps.neg (sample_cos_theta realOps sample2.x))
        = eval_rayleigh realOps
            (dot realOps (mi.to_world realOps (sample_local realOps sample2)) mi.wi) := by
  have hd := dot_sample_normal ctx mi hf sample1 sample2 active
  have h : (sample realOps ctx mi sample1 sample2 active).2
      = eval realOps ctx' mi (sample realOps ctx mi sample1 sample2 active).1 active' := by
    rw [sample_snd, eval_rayleigh_even]
    rcases hwi with h | h
    · simp only [eval, h, hd]
    · simp only [eval, h, dot_negate, hd]
      exact (eval_rayleigh_even _).symm
  exact ⟨h, h⟩

/-- Claim C1 (amended) at the event with the canonical frame and
`wi = (0, 0, 1)`, with `sample2 = (1/2, 0)`. -/
theorem C1_sample_pdf_eq_eval_witness :
    (sample realOps PhaseFunctionContext.radiance MediumInteraction3f.alongNormal 0
        ⟨1 / 2, 0⟩ true).2
      = eval realOps PhaseFunctionContext.radiance MediumInteraction3f.alongNormal
          (sample realOps PhaseFunctionContext.radiance MediumInteraction3f.alongNormal 0
            ⟨1 / 2, 0⟩ true).1 true :=
  (C1_sample_pdf_eq_eval PhaseFunctionContext.radiance PhaseFunctionContext.radiance
    MediumInteraction3f.alongNormal 0 ⟨1 / 2, 0⟩ true true canonical_orthonormal
    (Or.inl rfl)).1

/-- Claim C9: for every event with an orthonormal frame `(s, t, n)` and every
`sample2 = (u, v)` (in particular for `u` in `[0, 1]`): if `wi = n` the
returned direction satisfies `dot (wo, wi) = cos_theta`, if `wi = -n` it
satisfies `dot (wo, wi) = -cos_theta`, and in both cases the returned density
`eval_rayleigh (-cos_theta)` equals `eval` at `wo`; the density is even in its
cosine argument. -/
theorem C9_sign_convention (ctx : PhaseFunctionContext) (mi : MediumInteraction3f ℝ)
    (sample1 u v : ℝ) (active : Bool) (hf : mi.sh_frame.Orthonormal) :
    (mi.wi = mi.sh_frame.n →
        dot realOps (sample realOps ctx mi sample1 ⟨u, v⟩ active).1 mi.wi
            = sample_cos_theta realOps u
          ∧ eval_rayleigh realOps (realOps.neg (sample_cos_theta realOps u))
            = eval realOps ctx mi (sample realOps ctx mi sample1 ⟨u, v⟩ active).1 active)
      ∧ (mi.wi = mi.sh_frame.n.negate →
        dot realOps (sample realOps ctx mi sample1 ⟨u, v⟩ active).1 mi.wi
            = -sample_cos_theta realOps u
          ∧ eval_rayleigh realOps (realOps.neg (sample_cos_theta realOps u))
            = eval realOps ctx mi (sample realOps ctx mi sample1 ⟨u, v⟩ active).1 active)
      ∧ (sample realOps ctx mi sample1 ⟨u, v⟩ active).2
          = eval_rayleigh realOps (realOps.neg (sample_cos_theta realOps u))
      ∧ ∀ c : ℝ, eval_rayleigh realOps (-c) = eval_rayleigh realOps c := by
  have hd := dot_sample_normal ctx mi hf sample1 ⟨u, v⟩ active
  simp only at hd
  refine ⟨fun h => ?_, fun h => ?_, rfl, eval_rayleigh_even⟩
  · have hdot : dot realOps (sample realOps ctx mi sample1 ⟨u, v⟩ active).1 mi.wi
        = sample_cos_theta realOps u := by rw [h, hd]
    refine ⟨hdot, ?_⟩
    rw [eval_rayleigh_even]
    simp only [eval, hdot]
  · have hdot : dot realOps (sample realOps ctx mi sample1 ⟨u, v⟩ active).1 mi.wi
        = -sample_cos_theta realOps u := by rw [h, dot_negate, hd]
    refine ⟨hdot, ?_⟩
    simp only [eval, hdot]
    rfl

/-- Claim C9 at the event with the canonical frame and `wi = n = (0, 0, 1)`,
with `sample2 = (1/2, 0)`: the cosine between `wo` and `wi` is the sampled one. -/
theorem C9_sign_convention_witness :
    dot realOps (sample realOps PhaseFunctionContext.radiance MediumInteraction3f.alongNormal 0
        ⟨1 / 2, 0⟩ true).1 MediumInteraction3f.alongNormal.wi
      = sample_cos_theta realOps (1 / 2) :=
  ((C9_sign_convention PhaseFunctionContext.radiance MediumInteraction3f.alongNormal 0
    (1 / 2) 0 true canonical_orthonormal).1 rfl).1

/-! ## Unit length of the sampled direction -/

/-- Claim C10: for `u` in `[0, 1]` and every real `v`, the sampled cosine lies
in `[-1, 1]`, so the clamp of `safe_sqrt` returns its argument unchanged; the
local direction has squared length and length `1`; and for every event with an
orthonormal frame the direction returned by `sample` has length `1`. -/
theorem C10_sampled_direction_unit (u v : ℝ) (hu0 : 0 ≤ u) (hu1 : u ≤ 1) :
    (-1 ≤ sample_cos_theta realOps u ∧ sample_cos_theta realOps u ≤ 1)
      ∧ realOps.max (realOps.sub (realOps.lit 1) (sqr realOps (sample_cos_theta realOps u)))
            (realOps.lit 0)
          = realOps.sub (realOps.lit 1) (sqr realOps (sample_cos_theta realOps u))
      ∧ (sample_local realOps ⟨u, v⟩).x ^ 2 + (sample_local realOps ⟨u, v⟩).y ^ 2
          + (sample_local realOps ⟨u, v⟩).z ^ 2 = 1
      ∧ norm realOps (sample_local realOps ⟨u, v⟩) = 1
      ∧ ∀ (ctx : PhaseFunctionContext) (mi : MediumInteraction3f ℝ) (sample1 : ℝ)
          (active : Bool), mi.sh_frame.Orthonormal →
          norm realOps (sample realOps ctx mi sample1 ⟨u, v⟩ active).1 = 1 := by
  have hmem := sample_cos_theta_mem u hu0 hu1
  have hdot := sample_local_dot_self u v hu0 hu1
  refine ⟨hmem, ?_, ?_, ?_, ?_⟩
  · simp only [realOps_max, realOps_sub, realOps_lit, sqr, realOps_mul, Rat.cast_one,
      Rat.cast_zero]
    apply max_eq_left
    nlinarith [hmem.1, hmem.2]
  · rw [dot_real] at hdot
    linear_combination hdot
  · simp only [norm, hdot, realOps_sqrt, Real.sqrt_one]
  · intro ctx mi sample1 active hf
    simp only [norm, sample_fst, dot_to_world_self _ hf, hdot, realOps_sqrt, Real.sqrt_one]

/-- Claim C10 at `sample2 = (1/2, 0)` and the canonical frame. -/
theorem C10_sampled_direction_unit_witness :
    norm realOps (sample realOps PhaseFunctionContext.radiance MediumInteraction3f.alongNormal 0
      ⟨1 / 2, 0⟩ true).1 = 1 :=
  (C10_sampled_direction_unit (1 / 2) 0 (by norm_num) (by norm_num)).2.2.2.2
    PhaseFunctionContext.radiance MediumInteraction3f.alongNormal 0 true canonical_orthonormal

/-! ## Masked, batched execution -/

/-- The reductions of a batched variant look at every lane: on two lanes of
which one is set, `all` is `false` although it is `true` on the set lane
alone, and `any` is `true` although it is `false` on the other lane alone. -/
theorem batch_reductions_cross_lanes :
    (realOps.batch Bool fun _ m => m).all (fun b => b) = false
      ∧ realOps.all true = true
      ∧ (realOps.batch Bool fun _ m => m).any (fun b => b) = true
      ∧ realOps.any false = false := by
  refine ⟨?_, rfl, ?_, rfl⟩ <;> simp [FloatOps.batch, realOps]

/-- Claim C7: on a batch of lanes, for every mask, every behaviour of the mask
macro and every content of the other lanes, lane `i` of the results of the
batched `sample` and `eval` is the result of the scalar call on the inputs of
lane `i` alone; hence two batched calls whose inputs agree on lane `i` agree
on lane `i` of their results. The same holds for `sample_vec` and `eval_vec`:
in a lane that is active and whose handle resolves to the Rayleigh model, the
result is that of the scalar call on that lane, whatever the other lanes hold
and whatever instances their handles resolve to. The variant offers a body the
mask (`select`, `mand`) and the reductions over lanes (`any`, `all`); the
statement holds because the Rayleigh bodies use neither. -/
theorem C7_mask_invariance {F L : Type} [Fintype L] (ops : FloatOps F)
    (mf : ProfilerPhase → (L → ops.Mask) → (L → ops.Mask)) (ctx : PhaseFunctionContext)
    (mi : MediumInteraction3f (L → F)) (sample1 : L → F) (sample2 : Point2f (L → F))
    (wo : Vector3f (L → F)) (active : L → ops.Mask) (i : L) :
    ((sample (ops.batch L mf) ctx mi sample1 sample2 active).1.lane i
        = (sample ops ctx (mi.lane i) (sample1 i) (sample2.lane i) (ops.mask_lit true)).1
      ∧ (sample (ops.batch L mf) ctx mi sample1 sample2 active).2 i
        = (sample ops ctx (mi.lane i) (sample1 i) (sample2.lane i) (ops.mask_lit true)).2
      ∧ eval (ops.batch L mf) ctx mi wo active i
        = eval ops ctx (mi.lane i) (wo.lane i) (ops.mask_lit true))
      ∧ (∀ (mf' : ProfilerPhase → (L → ops.Mask) → (L → ops.Mask))
          (ctx' : PhaseFunctionContext) (mi' : MediumInteraction3f (L → F)) (sample1' : L → F)
          (sample2' : Point2f (L → F)) (wo' : Vector3f (L → F)) (active' : L → ops.Mask),
          mi'.lane i = mi.lane i → sample2'.lane i = sample2.lane i → wo'.lane i = wo.lane i →
          (sample (ops.batch L mf') ctx' mi' sample1' sample2' active').1.lane i
              = (sample (ops.batch L mf) ctx mi sample1 sample2 active).1.lane i
            ∧ (sample (ops.batch L mf') ctx' mi' sample1' sample2' active').2 i
              = (sample (ops.batch L mf) ctx mi sample1 sample2 active).2 i
            ∧ eval (ops.batch L mf') ctx' mi' wo' active' i
              = eval (ops.batch L mf) ctx mi wo active i)
      ∧ ∀ (H : Type) [DecidableEq H] (P : Type)
          (resolve : H → PhaseFunctionObject (L → F) (ops.batch L mf))
          (sargs : P → SampleVecArgs F L H ops.Mask) (eargs : P → EvalVecArgs F L H ops.Mask)
          (p : P) (h : H),
          (∀ a b : F, ops.select (ops.mask_lit true) a b = a) →
          ops.mand (ops.mask_lit true) (ops.mask_lit true) = ops.mask_lit true →
          resolve h = RayleighPhaseFunction.object (ops.batch L mf) →
          ((sargs p).ptr i = some h → (sargs p).active i = ops.mask_lit true →
            (sample_vec ops mf resolve ctx sargs p).1.lane i
                = (sample ops ctx ((sargs p).mi.lane i) ((sargs p).sample1 i)
                    ((sargs p).sample2.lane i) (ops.mask_lit true)).1
              ∧ (sample_vec ops mf resolve ctx sargs p).2 i
                = (sample ops ctx ((sargs p).mi.lane i) ((sargs p).sample1 i)
                    ((sargs p).sample2.lane i) (ops.mask_lit true)).2)
            ∧ ((eargs p).ptr i = some h → (eargs p).active i = ops.mask_lit true →
              eval_vec ops mf resolve ctx eargs p i
                = eval ops ctx ((eargs p).mi.lane i) ((eargs p).wo.lane i)
                    (ops.mask_lit true)) := by
  refine ⟨⟨rfl, rfl, rfl⟩, ?_, ?_⟩
  · intro mf' ctx' mi' sample1' sample2' wo' active' hmi hs hwo
    refine ⟨?_, ?_, ?_⟩
    · show (mi'.lane i).to_world ops (sample_local ops (sample2'.lane i))
        = (mi.lane i).to_world ops (sample_local ops (sample2.lane i))
      rw [hmi, hs]
    · show eval_rayleigh ops (ops.neg (sample_cos_theta ops (sample2'.lane i).x))
        = eval_rayleigh ops (ops.neg (sample_cos_theta ops (sample2.lane i).x))
      rw [hs]
    · show eval_rayleigh ops (dot ops (wo'.lane i) (mi'.lane i).wi)
        = eval_rayleigh ops (dot ops (wo.lane i) (mi.lane i).wi)
      rw [hmi, hwo]
  · intro H _ P resolve sargs eargs p h hsel hand hres
    refine ⟨fun hptr hact => ?_, fun hptr hact => ?_⟩
    · constructor
      · simp only [sample_vec, vectorize, PhaseFunctionPtr.sample, Vector3f.pack,
          Vector3f.lane, hptr, hact, decide_True, hand, hsel, hres]
        rfl
      · simp only [sample_vec, vectorize, PhaseFunctionPtr.sample, hptr, hact, decide_True,
          hand, hsel, hres]
        rfl
    · simp only [eval_vec, vectorize, PhaseFunctionPtr.eval, hptr, hact, decide_True, hand,
        hsel, hres]
      rfl

/-- Claim C7 on a packet of two lanes over the reals: lane `true` is active and
addressed to the Rayleigh model, lane `false` is inactive and filled with the
value `7`; the density `sample_vec` returns in lane `true` is the one of the
scalar call with `sample2 = (1, 0)` on the event along the normal. -/
theorem C7_mask_invariance_witness :
    (sample_vec realOps (fun _ m => m)
        (fun _ : Unit => RayleighPhaseFunction.object (realOps.batch Bool fun _ m => m))
        PhaseFunctionContext.radiance (fun _ : Unit => SampleVecArgs.twoLane 7) ()).2 true
      = (sample realOps PhaseFunctionContext.radiance MediumInteraction3f.alongNormal 7
          ⟨1, 0⟩ true).2 :=
  (((C7_mask_invariance realOps (fun _ m => m) PhaseFunctionContext.radiance
      (MediumInteraction3f.twoLane 7) (fun _ => 7) (Point2f.twoLane 7) (Vector3f.twoLane 7)
      (fun b => b) true).2.2 Unit Unit
      (fun _ => RayleighPhaseFunction.object (realOps.batch Bool fun _ m => m))
      (fun _ => SampleVecArgs.twoLane 7) (fun _ => EvalVecArgs.twoLane 7) () ()
      (fun _ _ => rfl) rfl rfl).1 rfl rfl).2

/-! ## Construction -/

/-- Claim C8: for every property dictionary (and either spectral variant), the
constructed model has exactly one component, the flags of that component are
exactly `Anisotropic`, and the aggregate flags equal the bitwise OR of the
per-component flags, which is `Anisotropic`. -/
theorem C8_rayleigh_flags (is_polarized : Bool) (props : Properties) :
    (RayleighPhaseFunction.new is_polarized props).1.component_count = 1
      ∧ (RayleighPhaseFunction.new is_polarized props).1.m_components
          = [PhaseFunctionFlags.Anisotropic.toUInt32]
      ∧ (RayleighPhaseFunction.new is_polarized props).1.flags_at 0
          = some PhaseFunctionFlags.Anisotropic.toUInt32
      ∧ (RayleighPhaseFunction.new is_polarized props).1.flags
          = (RayleighPhaseFunction.new is_polarized props).1.components_or
      ∧ (RayleighPhaseFunction.new is_polarized props).1.flags
          = PhaseFunctionFlags.Anisotropic.toUInt32 :=
  ⟨rfl, rfl, rfl, rfl, rfl⟩

/-! ## Extension trampoline -/

/-- Claim C5 as stated fails for `to_string`: on a scripted object with no
override the trampoline fails with the pure-virtual error and returns no
string at all, so it does not fall back to a base-class result. -/
theorem C5_to_string_without_override_fails :
    PyPhaseFunction.to_string (PyOverrides.none ℚ Bool)
        = Except.error (PyError.pure_virtual "PhaseFunction" "to_string")
      ∧ ∀ s : String, PyPhaseFunction.to_string (PyOverrides.none ℚ Bool) ≠ Except.ok s := by
  refine ⟨rfl, ?_⟩
  intro s h
  simp [PyPhaseFunction.to_string, PyOverrides.none, PYBIND11_OVERLOAD_PURE] at h

/-- Claim C5, amended: for each of the five operations, an override on the
bound object is what the trampoline returns; without an override, `sample`,
`eval` and `to_string` fail with the pure-virtual error, and `projected_area`
and `max_projected_area` return the native base-class result (three mandatory
operations, two optional). -/
theorem C5_trampoline_dispatch {F M : Type} (base : PhaseFunctionBase F M)
    (obj : PyOverrides F M) (ctx : PhaseFunctionContext) (mi : MediumInteraction3f F)
    (sample1 : F) (sample2 : Point2f F) (wo : Vector3f F) (active : M) :
    ((∀ f, obj.sample = some f → PyPhaseFunction.sample obj ctx mi sample1 sample2 active
          = Except.ok (f ctx mi sample1 sample2 active))
        ∧ (obj.sample = none → PyPhaseFunction.sample obj ctx mi sample1 sample2 active
          = Except.error (PyError.pure_virtual "PhaseFunction" "sample")))
      ∧ ((∀ f, obj.eval = some f → PyPhaseFunction.eval obj ctx mi wo active
          = Except.ok (f ctx mi wo active))
        ∧ (obj.eval = none → PyPhaseFunction.eval obj ctx mi wo active
          = Except.error (PyError.pure_virtual "PhaseFunction" "eval")))
      ∧ ((∀ f, obj.projected_area = some f → PyPhaseFunction.projected_area base obj mi active
          = Except.ok (f mi active))
        ∧ (obj.projected_area = none → PyPhaseFunction.projected_area base obj mi active
          = Except.ok (base.projected_area mi active)))
      ∧ ((∀ a, obj.max_projected_area = some a → PyPhaseFunction.max_projected_area base obj
          = Except.ok a)
        ∧ (obj.max_projected_area = none → PyPhaseFunction.max_projected_area base obj
          = Except.ok base.max_projected_area))
      ∧ ((∀ s, obj.to_string = some s → PyPhaseFunction.to_string obj = Except.ok s)
        ∧ (obj.to_string = none → PyPhaseFunction.to_string obj
          = Except.error (PyError.pure_virtual "PhaseFunction" "to_string"))) := by
  refine ⟨⟨?_, ?_⟩, ⟨?_, ?_⟩, ⟨?_, ?_⟩, ⟨?_, ?_⟩, ⟨?_, ?_⟩⟩ <;> intros <;>
    simp_all [PyPhaseFunction.sample, PyPhaseFunction.eval, PyPhaseFunction.projected_area,
      PyPhaseFunction.max_projected_area, PyPhaseFunction.to_string, PYBIND11_OVERLOAD_PURE,
      PYBIND11_OVERLOAD]

/-- Claim C5 (amended) on a scripted object that overrides only `sample` and
`eval`: `eval` returns the override, `projected_area` returns the base-class
value `1`, and `to_string` fails. -/
theorem C5_trampoline_dispatch_witness :
    PyPhaseFunction.eval PyOverrides.sampleEvalOnly PhaseFunctionContext.radiance
        ⟨⟨0, 0, 0⟩, ⟨0, 0, 1⟩, ⟨⟨1, 0, 0⟩, ⟨0, 1, 0⟩, ⟨0, 0, 1⟩⟩⟩ ⟨0, 0, 1⟩ true = Except.ok 1
      ∧ PyPhaseFunction.projected_area PhaseFunctionBase.unit PyOverrides.sampleEvalOnly
        ⟨⟨0, 0, 0⟩, ⟨0, 0, 1⟩, ⟨⟨1, 0, 0⟩, ⟨0, 1, 0⟩, ⟨0, 0, 1⟩⟩⟩ true = Except.ok 1
      ∧ PyPhaseFunction.to_string PyOverrides.sampleEvalOnly
        = Except.error (PyError.pure_virtual "PhaseFunction" "to_string") :=
  have h := C5_trampoline_dispatch PhaseFunctionBase.unit PyOverrides.sampleEvalOnly
    PhaseFunctionContext.radiance ⟨⟨0, 0, 0⟩, ⟨0, 0, 1⟩, ⟨⟨1, 0, 0⟩, ⟨0, 1, 0⟩, ⟨0, 0, 1⟩⟩⟩
    0 ⟨1 / 2, 0⟩ ⟨0, 0, 1⟩ true
  ⟨h.2.1.1 _ rfl, h.2.2.1.2 rfl, h.2.2.2.2.2 rfl⟩

end Mitsuba
